import Mathlib

/-!
Shallow embedding of `tradingstrategy/direct_feed/reorgmon.py`: the
`ReorganisationMonitor` block ledger and its reconciliation engine.

Conventions of the embedding:

* Python's `dict` keyed by block number is an association list kept in
  insertion order; every insertion in the source happens on a key that the
  code has just checked to be absent, so plain append preserves dict
  semantics.
* Python exceptions that escape a method are returned as explicit error
  values (`PyError`).  `ChainReorganisationDetected`, which the source uses
  as internal control flow caught inside `update_chain`, is a constructor of
  the scan-result type instead.
* Python ints here are block numbers, timestamps and counters, all
  non-negative in every reachable state, so they are modelled as `Nat`; the
  one comparison where a negative intermediate value matters
  (`last_block_read == block_number - 1` in `add_block`) is performed in
  `Int` to match Python's arithmetic exactly.
* The abstract block source (`get_last_block_live` / `get_block_data`) can
  answer differently on each scan attempt of one `update_chain` call (the
  live chain moves between retries), so both hooks take the scan-attempt
  index as their first argument; a source that ignores it is a fixed chain.
-/

namespace Reorgmon

/-- One observed block header, mirroring the frozen dataclass `BlockRecord`. -/
structure BlockRecord where
  block_number : Nat
  block_hash : String
  timestamp : Nat
deriving DecidableEq, Repr

/-- Result value of `update_chain`, mirroring `ChainReorganisationResolution`. -/
structure ChainReorganisationResolution where
  last_block_number : Nat
  latest_good_block : Option Nat
deriving DecidableEq, Repr

/-- Mutable state of a `ReorganisationMonitor` instance: the block ledger
(`block_map`, `last_block_read`) plus the two configuration fields set in
`__init__`. -/
structure ReorganisationMonitor where
  block_map : List (Nat × BlockRecord)
  last_block_read : Nat
  check_depth : Nat
  max_cycle_tries : Nat
deriving DecidableEq, Repr

/-- Python exceptions (other than `ChainReorganisationDetected`) that the
monitor's methods can raise: `assert` failures, the `AttributeError` from
dereferencing `None`, and `KeyError` from `del` / subscript on a missing
key. -/
inductive PyError where
  | assertionError (msg : String)
  | attributeError
  | keyError (k : Nat)
deriving DecidableEq, Repr

/-- Lookup in the dict modelled as an association list:
`self.block_map.get(block_number)` / `self.block_map[block_number]`. -/
def dict_get : List (Nat × BlockRecord) → Nat → Option BlockRecord
  | [], _ => none
  | (k, r) :: rest, k' => if k = k' then some r else dict_get rest k'

/-- Deletion of one key: `del self.block_map[k]` once the key is known to be
present (absence is handled by the caller `del_range_loop`). -/
def dict_del (bm : List (Nat × BlockRecord)) (k : Nat) : List (Nat × BlockRecord) :=
  bm.filter (fun p => p.1 ≠ k)

/-- Fresh monitor as built by `ReorganisationMonitor.__init__`: empty
`block_map`, `last_block_read = 0`, and the two constructor parameters
(defaults `check_depth=200`, `max_reorg_resolution_attempts=10`). -/
def init (check_depth max_reorg_resolution_attempts : Nat) : ReorganisationMonitor :=
  ⟨[], 0, check_depth, max_reorg_resolution_attempts⟩

/-- `ReorganisationMonitor.add_block`.  The source asserts the key is absent,
then inserts, and only afterwards asserts in-order growth — so on an
out-of-order block the record has already been stored when the assertion
raises.  Returns the (possibly mutated) state together with the raised
assertion, if any. -/
def ReorganisationMonitor.add_block (self : ReorganisationMonitor) (record : BlockRecord) :
    ReorganisationMonitor × Option PyError :=
  let block_number := record.block_number
  if (dict_get self.block_map block_number).isSome then
    (self, some (PyError.assertionError "Block already added"))
  else
    let inserted := { self with block_map := self.block_map ++ [(block_number, record)] }
    if (self.last_block_read : Int) = (block_number : Int) - 1 then
      ({ inserted with last_block_read := block_number }, none)
    else
      (inserted, some (PyError.assertionError "Blocks must be added in order"))

/-- Outcome of `ReorganisationMonitor.check_block_reorg`: normal return, a
raised `ChainReorganisationDetected(block_number, original_hash, new_hash)`,
or the `AttributeError` raised when `block_map.get` returned `None` and the
code reads `.block_hash` from it. -/
inductive CheckResult where
  | ok
  | reorgDetected (block_number : Nat) (original_hash new_hash : String)
  | noneAttributeError
deriving DecidableEq, Repr

/-- `ReorganisationMonitor.check_block_reorg`. -/
def ReorganisationMonitor.check_block_reorg (self : ReorganisationMonitor)
    (block_number : Nat) (block_hash : String) : CheckResult :=
  match dict_get self.block_map block_number with
  | none => CheckResult.noneAttributeError
  | some original_block =>
    if original_block.block_hash ≠ block_hash then
      CheckResult.reorgDetected block_number original_block.block_hash block_hash
    else
      CheckResult.ok

/-- Body of the `for block_to_delete in range(...)` loop of `truncate`:
delete the listed keys one by one, stopping with `KeyError` at the first
missing one (partial deletions stay, as in Python). -/
def del_range_loop : List (Nat × BlockRecord) → List Nat →
    List (Nat × BlockRecord) × Option PyError
  | bm, [] => (bm, none)
  | bm, k :: rest =>
    if (dict_get bm k).isSome then del_range_loop (dict_del bm k) rest
    else (bm, some (PyError.keyError k))

/-- `ReorganisationMonitor.truncate`.  Note the source iterates
`range(latest_good_block + 1, self.last_block_read)` — the upper bound is
exclusive, so the record at `last_block_read` itself is never deleted.
`last_block_read` is reassigned only when no deletion raised. -/
def ReorganisationMonitor.truncate (self : ReorganisationMonitor) (latest_good_block : Nat) :
    ReorganisationMonitor × Option PyError :=
  if self.last_block_read = 0 then
    (self, some (PyError.assertionError "assert self.last_block_read"))
  else
    match del_range_loop self.block_map
        (List.range' (latest_good_block + 1) (self.last_block_read - (latest_good_block + 1))) with
    | (bm, some e) => ({ self with block_map := bm }, some e)
    | (bm, none) => ({ self with block_map := bm, last_block_read := latest_good_block }, none)

/-- `ReorganisationMonitor.get_block_timestamp`; `none` models the `KeyError`
raised by `self.block_map[block_number]` on a missing key. -/
def ReorganisationMonitor.get_block_timestamp (self : ReorganisationMonitor)
    (block_number : Nat) : Option Nat :=
  (dict_get self.block_map block_number).map (fun r => r.timestamp)

/-- Abstract block data source (the two `@abstractmethod` hooks).  The first
argument of each hook is the scan-attempt index inside one `update_chain`
call, modelling that the live chain may answer differently on each retry. -/
structure BlockSource where
  get_last_block_live : Nat → Nat
  get_block_data : Nat → Nat → Nat → List BlockRecord

/-- Outcome of one `figure_reorganisation_and_new_blocks` pass: normal
return with the updated state, a `ChainReorganisationDetected` escaping with
the state mutated so far, or another Python exception. -/
inductive FigureResult where
  | ok (m : ReorganisationMonitor)
  | reorgDetected (m : ReorganisationMonitor) (block_number : Nat) (original_hash new_hash : String)
  | err (m : ReorganisationMonitor) (e : PyError)
deriving DecidableEq, Repr

/-- Body of the `for block in self.get_block_data(...)` loop of
`figure_reorganisation_and_new_blocks`: each streamed block is first passed
to `check_block_reorg`, and only then, if its number is not in the ledger,
appended via `add_block`. -/
def process_scan (m : ReorganisationMonitor) : List BlockRecord → FigureResult
  | [] => FigureResult.ok m
  | block :: rest =>
    match m.check_block_reorg block.block_number block.block_hash with
    | CheckResult.noneAttributeError => FigureResult.err m PyError.attributeError
    | CheckResult.reorgDetected bn o n => FigureResult.reorgDetected m bn o n
    | CheckResult.ok =>
      if (dict_get m.block_map block.block_number).isNone then
        match m.add_block block with
        | (m', some e) => FigureResult.err m' e
        | (m', none) => process_scan m' rest
      else
        process_scan m rest

/-- `ReorganisationMonitor.figure_reorganisation_and_new_blocks`. -/
def ReorganisationMonitor.figure_reorganisation_and_new_blocks
    (self : ReorganisationMonitor) (source : BlockSource) (attempt : Nat) : FigureResult :=
  let chain_last_block := source.get_last_block_live attempt
  let check_start_at := max (self.last_block_read - self.check_depth) 1
  process_scan self (source.get_block_data attempt check_start_at chain_last_block)

/-- Outcome of `update_chain`: a returned resolution, the
`ReorganisationResolutionFailure` raised on retry exhaustion, or another
Python exception escaping the call. -/
inductive UpdateResult where
  | ok (m : ReorganisationMonitor) (res : ChainReorganisationResolution)
  | resolutionFailure (m : ReorganisationMonitor)
  | err (m : ReorganisationMonitor) (e : PyError)
deriving DecidableEq, Repr

/-- Retry loop of `update_chain`, with `tries_left` as fuel.  On a detected
reorg the source runs `latest_good_block = e.block_number - 1`, then
`max_purge = min(latest_good_block, max_purge) if max_purge else
e.block_number` — note the `else` branch stores `e.block_number`, not
`latest_good_block`, and that Python's `if max_purge:` treats `0` like
`None` — then truncates and retries. -/
def update_loop (source : BlockSource) :
    Nat → Option Nat → Nat → ReorganisationMonitor → UpdateResult
  | _, _, 0, m => UpdateResult.resolutionFailure m
  | attempt, max_purge, tries_left + 1, m =>
    match m.figure_reorganisation_and_new_blocks source attempt with
    | FigureResult.ok m' =>
      UpdateResult.ok m' ⟨m'.last_block_read, max_purge⟩
    | FigureResult.err m' e => UpdateResult.err m' e
    | FigureResult.reorgDetected m' bn _o _n =>
      let latest_good_block := bn - 1
      let max_purge' : Option Nat :=
        match max_purge with
        | some mp => if mp = 0 then some bn else some (min latest_good_block mp)
        | none => some bn
      match m'.truncate latest_good_block with
      | (m'', some e) => UpdateResult.err m'' e
      | (m'', none) => update_loop source (attempt + 1) max_purge' tries_left m''

/-- `ReorganisationMonitor.update_chain`. -/
def ReorganisationMonitor.update_chain (self : ReorganisationMonitor)
    (source : BlockSource) : UpdateResult :=
  update_loop source 0 none self.max_cycle_tries self

/-- Observer over the retry loop: how many times `update_chain` reaches
`self.truncate(latest_good_block)` before terminating.  Mirrors the control
flow of `update_loop` exactly (the running `max_purge` never influences
which branch is taken, so it is not needed here). -/
def update_loop_truncation_count (source : BlockSource) :
    Nat → Nat → ReorganisationMonitor → Nat
  | _, 0, _ => 0
  | attempt, tries_left + 1, m =>
    match m.figure_reorganisation_and_new_blocks source attempt with
    | FigureResult.ok _ => 0
    | FigureResult.err _ _ => 0
    | FigureResult.reorgDetected m' bn _o _n =>
      match m'.truncate (bn - 1) with
      | (_, some _) => 1
      | (m'', none) => 1 + update_loop_truncation_count source (attempt + 1) tries_left m''

/-- Truncation count of one whole `update_chain` call. -/
def ReorganisationMonitor.update_chain_truncation_count (self : ReorganisationMonitor)
    (source : BlockSource) : Nat :=
  update_loop_truncation_count source 0 self.max_cycle_tries self

/-- Sequence of `add_block` calls that must all succeed (`none` as soon as
one raises), used to express "seeded via `add_block`". -/
def add_sequence (m : ReorganisationMonitor) : List BlockRecord → Option ReorganisationMonitor
  | [] => some m
  | r :: rest =>
    match m.add_block r with
    | (m', none) => add_sequence m' rest
    | (_, some _) => none

/-- Block records of the seeded test scenario: blocks 1..5 with hashes
"0x1".."0x5" and timestamps equal to the block number. -/
def seed_records : List BlockRecord :=
  [⟨1, "0x1", 1⟩, ⟨2, "0x2", 2⟩, ⟨3, "0x3", 3⟩, ⟨4, "0x4", 4⟩, ⟨5, "0x5", 5⟩]

/-- State after seeding a default-configured monitor with blocks 1..5. -/
def m5 : ReorganisationMonitor :=
  ⟨[(1, ⟨1, "0x1", 1⟩), (2, ⟨2, "0x2", 2⟩), (3, ⟨3, "0x3", 3⟩),
    (4, ⟨4, "0x4", 4⟩), (5, ⟨5, "0x5", 5⟩)], 5, 200, 10⟩

/-- State after seeding a monitor with `check_depth = 2` (so that the
re-check window over a 5-block ledger starts at block 3) with blocks 1..5. -/
def m5_shallow : ReorganisationMonitor :=
  ⟨[(1, ⟨1, "0x1", 1⟩), (2, ⟨2, "0x2", 2⟩), (3, ⟨3, "0x3", 3⟩),
    (4, ⟨4, "0x4", 4⟩), (5, ⟨5, "0x5", 5⟩)], 5, 2, 10⟩

/-- Source for the forward-growth scenario: chain head 6, blocks 1..5
unchanged, new block 6 with hash "0x6". -/
def source_growth : BlockSource :=
  ⟨fun _ => 6,
   fun _ lo hi => (List.range' lo (hi + 1 - lo)).map (fun n => ⟨n, "0x" ++ toString n, n⟩)⟩

/-- Source for the reorg scenario: chain head still 5, block 4 now reported
with hash "0xBAD", all other blocks unchanged. -/
def source_reorg : BlockSource :=
  ⟨fun _ => 5,
   fun _ lo hi => (List.range' lo (hi + 1 - lo)).map
     (fun n => ⟨n, if n = 4 then "0xBAD" else "0x" ++ toString n, n⟩)⟩

/-- Source with a one-off orphaned tip: on the first scan the chain head is
5 and block 5 carries the replacement hash "0xB5"; on every later scan the
head has receded to 4 and all blocks up to 4 are unchanged. -/
def source_tip_reorg : BlockSource :=
  ⟨fun attempt => if attempt = 0 then 5 else 4,
   fun attempt lo hi => (List.range' lo (hi + 1 - lo)).map
     (fun n => ⟨n, if attempt = 0 ∧ n = 5 then "0xB5" else "0x" ++ toString n, n⟩)⟩

/-- Source with a permanently unstable tip: on every scan the chain head is
5 and block 5 is reported with hash "0xEVIL", blocks 1..4 unchanged. -/
def source_unstable_tip : BlockSource :=
  ⟨fun _ => 5,
   fun _ lo hi => (List.range' lo (hi + 1 - lo)).map
     (fun n => ⟨n, if n = 5 then "0xEVIL" else "0x" ++ toString n, n⟩)⟩

/-- Source that echoes the seeded ledger unchanged: chain head 5, blocks
reported with their original hashes. -/
def source_echo : BlockSource :=
  ⟨fun _ => 5,
   fun _ lo hi => (List.range' lo (hi + 1 - lo)).map (fun n => ⟨n, "0x" ++ toString n, n⟩)⟩

/-- State of the seeded ledger after `truncate(3)`: only block 4 was deleted
(the `range` upper bound is exclusive), so the record for block 5 survives
while `last_block_read` drops to 3. -/
def m_truncated : ReorganisationMonitor :=
  ⟨[(1, ⟨1, "0x1", 1⟩), (2, ⟨2, "0x2", 2⟩), (3, ⟨3, "0x3", 3⟩),
    (5, ⟨5, "0x5", 5⟩)], 3, 200, 10⟩

/-- State of the seeded ledger after a detected tip reorg at block 5 and the
resulting `truncate(4)`: nothing is deleted (`range(5, 5)` is empty), the
stale record for block 5 stays, and `last_block_read` drops to 4. -/
def m_unstable : ReorganisationMonitor :=
  ⟨[(1, ⟨1, "0x1", 1⟩), (2, ⟨2, "0x2", 2⟩), (3, ⟨3, "0x3", 3⟩),
    (4, ⟨4, "0x4", 4⟩), (5, ⟨5, "0x5", 5⟩)], 4, 200, 10⟩

/-- C1.  The end-to-end forward-growth scenario does NOT behave as claimed:
after seeding blocks 1..5 via `add_block`, a source reporting blocks 3..5
unchanged plus a new block 6 (chain head 6) makes `update_chain` raise the
`AttributeError` from `check_block_reorg` dereferencing the `None` returned
by `block_map.get(6)`, instead of appending block 6 and returning `(6,
None)`; the ledger still ends at block 5 and never receives block 6. -/
theorem C1_forward_growth_scenario_crashes :
    add_sequence (init 2 10) seed_records = some m5_shallow ∧
    m5_shallow.update_chain source_growth
      = UpdateResult.err m5_shallow PyError.attributeError ∧
    dict_get m5_shallow.block_map 6 = none ∧
    m5_shallow.last_block_read = 5 :=
  ⟨rfl, rfl, rfl, rfl⟩

/-- C2.  Truncate does NOT delete every block above the truncation point: on
the ledger seeded with blocks 1..5, `truncate(3)` deletes only block 4
(the loop runs over `range(4, 5)`, whose upper bound is exclusive), so
`last_block_read` becomes 3 but the record for block 5 is still retrievable
via `get_block_timestamp`, contradicting the claim that no block number
greater than 3 remains. -/
theorem C2_truncate_keeps_last_block :
    m5.truncate 3 = (m_truncated, none) ∧
    m_truncated.last_block_read = 3 ∧
    m_truncated.get_block_timestamp 5 = some 5 ∧
    dict_get m_truncated.block_map 5 = some ⟨5, "0x5", 5⟩ :=
  ⟨rfl, rfl, rfl, rfl⟩

/-- C3.  The reorg-resolution scenario does NOT return `(5, 3)`: with the
ledger seeded 1..5 and the source reporting block 4 with hash "0xBAD" (head
still 5), the first scan detects the reorg and truncates to 3 (deleting only
block 4 and keeping the stale block 5), and the re-scan then crashes with
the `AttributeError` from `check_block_reorg` on the now-absent block 4 —
the corrected blocks 4 and 5 are never appended and no resolution is
returned. -/
theorem C3_reorg_scenario_crashes :
    m5.update_chain source_reorg = UpdateResult.err m_truncated PyError.attributeError ∧
    dict_get m_truncated.block_map 4 = none ∧
    m_truncated.last_block_read = 3 :=
  ⟨rfl, rfl, rfl⟩

/-- C4.  The purge-point bookkeeping does NOT record `N - 1` on the first
detected reorg: with the ledger seeded 1..5 and a source whose first scan
reports a replaced tip (block 5, hash "0xB5") and whose later scans report a
receded head 4 with blocks 1..4 unchanged, `update_chain` detects the reorg
at block 5, truncates to 4, and returns a resolution whose
`latest_good_block` is 5 (the code stores `e.block_number` in the
no-purge-point-yet branch) even though the truncation point — the lowest
block surviving as the ledger tail — was 4. -/
theorem C4_first_purge_point_is_block_number :
    m5.update_chain source_tip_reorg
      = UpdateResult.ok m_unstable ⟨4, some 5⟩ ∧
    m_unstable.last_block_read = 4 :=
  ⟨rfl, rfl⟩

theorem dict_get_append (l1 l2 : List (Nat × BlockRecord)) (k : Nat) :
    dict_get (l1 ++ l2) k =
      match dict_get l1 k with
      | some r => some r
      | none => dict_get l2 k := by
  induction l1 with
  | nil => simp [dict_get]
  | cons p rest ih =>
    obtain ⟨k', r⟩ := p
    by_cases h : k' = k <;> simp [dict_get, h, ih]

/-- C6.  `add_block` always raises when the record's number is not
`last_block_read + 1` or is already present: the result carries an
assertion error in every such case, for every ledger state. -/
theorem C6_out_of_order_add_always_raises (m : ReorganisationMonitor) (record : BlockRecord)
    (h : record.block_number ≠ m.last_block_read + 1 ∨
      (dict_get m.block_map record.block_number).isSome) :
    (m.add_block record).2.isSome := by
  by_cases hmem : (dict_get m.block_map record.block_number).isSome
  · simp [ReorganisationMonitor.add_block, hmem]
  · have hne : record.block_number ≠ m.last_block_read + 1 := by
      rcases h with h | h
      · exact h
      · exact absurd h hmem
    have hguard : ¬ ((m.last_block_read : Int) = (record.block_number : Int) - 1) := by
      omega
    simp [ReorganisationMonitor.add_block, hmem, hguard]

/-- Witness for C6: adding block 7 to the ledger ending at block 5 raises. -/
theorem C6_out_of_order_add_always_raises_witness :
    ((7 : Nat) ≠ m5.last_block_read + 1 ∨ (dict_get m5.block_map 7).isSome) ∧
    (m5.add_block ⟨7, "0x7", 7⟩).2.isSome :=
  ⟨Or.inl (by decide),
    C6_out_of_order_add_always_raises m5 ⟨7, "0x7", 7⟩ (Or.inl (by decide))⟩

/-- C9.  `check_block_reorg` on a block number absent from the ledger
neither returns normally nor raises `ChainReorganisationDetected`: it hits
the `AttributeError` from reading `.block_hash` off the `None` returned by
`block_map.get`, and a scan whose stream reaches such a block therefore
errors out before the append step. -/
theorem C9_absent_block_hits_attribute_error (m : ReorganisationMonitor) (b : BlockRecord)
    (rest : List BlockRecord) (h : dict_get m.block_map b.block_number = none) :
    m.check_block_reorg b.block_number b.block_hash = CheckResult.noneAttributeError ∧
    process_scan m (b :: rest) = FigureResult.err m PyError.attributeError := by
  have h1 : m.check_block_reorg b.block_number b.block_hash
      = CheckResult.noneAttributeError := by
    unfold ReorganisationMonitor.check_block_reorg
    rw [h]
  exact ⟨h1, by simp [process_scan, h1]⟩

/-- Witness for C9: block 6 is absent from the seeded ledger, so checking it
yields the attribute error and so does the scan reaching it. -/
theorem C9_absent_block_hits_attribute_error_witness :
    dict_get m5.block_map 6 = none ∧
    m5.check_block_reorg 6 "0x6" = CheckResult.noneAttributeError ∧
    process_scan m5 [⟨6, "0x6", 6⟩] = FigureResult.err m5 PyError.attributeError := by
  refine ⟨rfl, ?_⟩
  have := C9_absent_block_hits_attribute_error m5 ⟨6, "0x6", 6⟩ [] rfl
  exact this

/-- C10.  `add_block` is not atomic on the in-order failure: when the
record's number is absent but not `last_block_read + 1`, the call raises yet
leaves the offending record inserted in `block_map`, with `last_block_read`
unchanged. -/
theorem C10_add_block_mutates_on_failure (m : ReorganisationMonitor) (record : BlockRecord)
    (h1 : dict_get m.block_map record.block_number = none)
    (h2 : record.block_number ≠ m.last_block_read + 1) :
    (m.add_block record).2.isSome ∧
    (m.add_block record).1.block_map = m.block_map ++ [(record.block_number, record)] ∧
    (m.add_block record).1.last_block_read = m.last_block_read ∧
    dict_get (m.add_block record).1.block_map record.block_number = some record := by
  have hguard : ¬ ((m.last_block_read : Int) = (record.block_number : Int) - 1) := by
    omega
  have hmem : ¬ (dict_get m.block_map record.block_number).isSome := by
    simp [h1]
  have hadd : m.add_block record =
      ({ m with block_map := m.block_map ++ [(record.block_number, record)] },
        some (PyError.assertionError "Blocks must be added in order")) := by
    simp [ReorganisationMonitor.add_block, hmem, hguard]
  refine ⟨by rw [hadd]; rfl, by rw [hadd], by rw [hadd], ?_⟩
  rw [hadd]
  show dict_get (m.block_map ++ [(record.block_number, record)]) record.block_number
    = some record
  rw [dict_get_append, h1]
  simp [dict_get]

/-- Witness for C10: pushing block 7 onto the ledger ending at 5 fails but
leaves block 7 stored. -/
theorem C10_add_block_mutates_on_failure_witness :
    dict_get m5.block_map 7 = none ∧ (7 : Nat) ≠ m5.last_block_read + 1 ∧
    (m5.add_block ⟨7, "0x7", 7⟩).2.isSome ∧
    dict_get (m5.add_block ⟨7, "0x7", 7⟩).1.block_map 7 = some ⟨7, "0x7", 7⟩ ∧
    (m5.add_block ⟨7, "0x7", 7⟩).1.last_block_read = 5 := by
  have h := C10_add_block_mutates_on_failure m5 ⟨7, "0x7", 7⟩ rfl (by decide)
  exact ⟨rfl, by decide, h.1, h.2.2.2, h.2.2.1⟩

/-- Contiguity predicate on a ledger: the stored block numbers are exactly
the range `{1, ..., last_block_read}`. -/
def ledger_contiguous (m : ReorganisationMonitor) : Prop :=
  ∀ n, (dict_get m.block_map n).isSome ↔ 1 ≤ n ∧ n ≤ m.last_block_read

theorem init_contiguous (d t : Nat) : ledger_contiguous (init d t) := by
  intro n
  simp [init, dict_get]
  omega

theorem add_block_preserves_contiguous (m : ReorganisationMonitor) (r : BlockRecord)
    (m' : ReorganisationMonitor) (hinv : ledger_contiguous m)
    (h : m.add_block r = (m', none)) : ledger_contiguous m' := by
  by_cases hmem : (dict_get m.block_map r.block_number).isSome
  · simp [ReorganisationMonitor.add_block, hmem] at h
  · by_cases hguard : (m.last_block_read : Int) = (r.block_number : Int) - 1
    · have hsucc : r.block_number = m.last_block_read + 1 := by omega
      simp [ReorganisationMonitor.add_block, hmem, hguard] at h
      intro n
      rw [← h]
      show (dict_get (m.block_map ++ [(r.block_number, r)]) n).isSome ↔
        1 ≤ n ∧ n ≤ r.block_number
      rw [dict_get_append]
      rcases hg : dict_get m.block_map n with _ | v
      · have hn : ¬ (1 ≤ n ∧ n ≤ m.last_block_read) := by
          rw [← hinv n, hg]
          simp
        by_cases hne : r.block_number = n <;> simp [dict_get, hne] <;> omega
      · have hn : 1 ≤ n ∧ n ≤ m.last_block_read := by
          rw [← hinv n, hg]
          simp
        simp
        omega
    · simp [ReorganisationMonitor.add_block, hmem, hguard] at h

theorem add_sequence_preserves_contiguous (rs : List BlockRecord) :
    ∀ m m', ledger_contiguous m → add_sequence m rs = some m' →
      ledger_contiguous m' := by
  induction rs with
  | nil =>
    intro m m' hinv h
    simp [add_sequence] at h
    rwa [← h]
  | cons r rest ih =>
    intro m m' hinv h
    unfold add_sequence at h
    rcases hab : m.add_block r with ⟨m'', e⟩
    rw [hab] at h
    cases e with
    | none => exact ih m'' m' (add_block_preserves_contiguous m r m'' hinv hab) h
    | some _ => simp at h

/-- C7.  Contiguity invariant: any sequence of `add_block` calls that all
succeed, starting from a freshly constructed monitor, leaves the ledger
holding exactly the block numbers `{1, ..., last_block_read}` — no gaps, no
extras.  (From the fresh state, the first block that can be accepted is
block 1, so the range starts at 1.) -/
theorem C7_contiguity_invariant (depth tries : Nat) (rs : List BlockRecord)
    (m' : ReorganisationMonitor)
    (h : add_sequence (init depth tries) rs = some m') (n : Nat) :
    (dict_get m'.block_map n).isSome ↔ 1 ≤ n ∧ n ≤ m'.last_block_read :=
  add_sequence_preserves_contiguous rs (init depth tries) m'
    (init_contiguous depth tries) h n

/-- Witness for C7: seeding blocks 1..5 succeeds and block 3 is in range. -/
theorem C7_contiguity_invariant_witness :
    add_sequence (init 200 10) seed_records = some m5 ∧
    ((dict_get m5.block_map 3).isSome ↔ 1 ≤ 3 ∧ 3 ≤ m5.last_block_read) :=
  ⟨rfl, C7_contiguity_invariant 200 10 seed_records m5 rfl 3⟩

theorem process_scan_clean (m : ReorganisationMonitor) (blocks : List BlockRecord)
    (h : ∀ b ∈ blocks,
      (dict_get m.block_map b.block_number).map BlockRecord.block_hash
        = some b.block_hash) :
    process_scan m blocks = FigureResult.ok m := by
  induction blocks with
  | nil => rfl
  | cons b rest ih =>
    have hb := h b (List.mem_cons_self b rest)
    rcases hg : dict_get m.block_map b.block_number with _ | v
    · rw [hg] at hb
      simp at hb
    · rw [hg] at hb
      simp at hb
      have hcheck : m.check_block_reorg b.block_number b.block_hash = CheckResult.ok := by
        unfold ReorganisationMonitor.check_block_reorg
        rw [hg]
        simp [hb]
      have hstep : process_scan m (b :: rest) = process_scan m rest := by
        simp [process_scan, hcheck, hg]
      rw [hstep]
      exact ih (fun b' hb' => h b' (List.mem_cons_of_mem b hb'))

/-- C8.  Clean-pass idempotence: when the source reports no new blocks
(chain head equal to `last_block_read`) and every streamed hash of the
re-check window matches a record already in the ledger, `update_chain`
returns the resolution `(last_block_read, None)` without touching the state,
and a second consecutive call returns the same `last_block_number` with no
purge point. -/
theorem C8_clean_pass_idempotent (source : BlockSource) (m : ReorganisationMonitor)
    (htries : 0 < m.max_cycle_tries)
    (_hhead : source.get_last_block_live 0 = m.last_block_read)
    (hclean : ∀ b ∈ source.get_block_data 0 (max (m.last_block_read - m.check_depth) 1)
        (source.get_last_block_live 0),
      (dict_get m.block_map b.block_number).map BlockRecord.block_hash
        = some b.block_hash) :
    m.update_chain source = UpdateResult.ok m ⟨m.last_block_read, none⟩ ∧
    ∀ m₂ res, m.update_chain source = UpdateResult.ok m₂ res →
      m₂.update_chain source = UpdateResult.ok m₂ ⟨res.last_block_number, none⟩ := by
  have hfig : m.figure_reorganisation_and_new_blocks source 0 = FigureResult.ok m := by
    unfold ReorganisationMonitor.figure_reorganisation_and_new_blocks
    exact process_scan_clean m _ hclean
  have hmain : m.update_chain source = UpdateResult.ok m ⟨m.last_block_read, none⟩ := by
    unfold ReorganisationMonitor.update_chain
    rcases htr : m.max_cycle_tries with _ | t
    · omega
    · simp [update_loop, hfig]
  refine ⟨hmain, ?_⟩
  intro m₂ res h2
  have heq := hmain.symm.trans h2
  injection heq with ha hb
  rw [← ha, ← hb]
  exact hmain

/-- Witness for C8: the seeded ledger against the echoing source. -/
theorem C8_clean_pass_idempotent_witness :
    0 < m5.max_cycle_tries ∧
    source_echo.get_last_block_live 0 = m5.last_block_read ∧
    m5.update_chain source_echo = UpdateResult.ok m5 ⟨m5.last_block_read, none⟩ :=
  ⟨by decide, rfl,
    (C8_clean_pass_idempotent source_echo m5 (by decide) rfl (by decide)).1⟩

theorem update_loop_unstable (source : BlockSource) (P : ReorganisationMonitor → Prop)
    (hstep : ∀ attempt m', P m' →
      ∃ m'' bn o n, m'.figure_reorganisation_and_new_blocks source attempt
          = FigureResult.reorgDetected m'' bn o n ∧
        (m''.truncate (bn - 1)).2 = none ∧ P (m''.truncate (bn - 1)).1) :
    ∀ fuel attempt max_purge m', P m' →
      (∃ mf, update_loop source attempt max_purge fuel m'
        = UpdateResult.resolutionFailure mf) ∧
      update_loop_truncation_count source attempt fuel m' = fuel := by
  intro fuel
  induction fuel with
  | zero =>
    intro attempt mp m' _hP
    exact ⟨⟨m', rfl⟩, rfl⟩
  | succ t ih =>
    intro attempt mp m' hP
    obtain ⟨m'', bn, o, n, hfig, htrunc, hPnext⟩ := hstep attempt m' hP
    rcases hpair : m''.truncate (bn - 1) with ⟨m2, e⟩
    rw [hpair] at htrunc hPnext
    simp at htrunc
    subst htrunc
    simp at hPnext
    constructor
    · obtain ⟨mf, hmf⟩ := (ih (attempt + 1)
        (match mp with
          | some p => if p = 0 then some bn else some (min (bn - 1) p)
          | none => some bn) m2 hPnext).1
      exact ⟨mf, by simp [update_loop, hfig, hpair]; exact hmf⟩
    · have hcount := (ih (attempt + 1) none m2 hPnext).2
      simp [update_loop_truncation_count, hfig, hpair]
      omega

/-- C5.  Retry exhaustion: against a source that on every scan makes the
comparison detect a changed hash at a block present in the ledger (a
permanently unstable tip, captured by the invariant `P` preserved across
detection and truncation), `update_chain` raises
`ReorganisationResolutionFailure` and performs exactly `max_cycle_tries`
truncation attempts — it never loops beyond the budget and never returns a
resolution. -/
theorem C5_retry_exhaustion (source : BlockSource) (m : ReorganisationMonitor)
    (P : ReorganisationMonitor → Prop) (hP : P m)
    (hstep : ∀ attempt m', P m' →
      ∃ m'' bn o n, m'.figure_reorganisation_and_new_blocks source attempt
          = FigureResult.reorgDetected m'' bn o n ∧
        (m''.truncate (bn - 1)).2 = none ∧ P (m''.truncate (bn - 1)).1) :
    (∃ mf, m.update_chain source = UpdateResult.resolutionFailure mf) ∧
    m.update_chain_truncation_count source = m.max_cycle_tries :=
  update_loop_unstable source P hstep m.max_cycle_tries 0 none m hP

/-- Witness for C5: the seeded ledger against the permanently unstable tip
(block 5 always re-reported with hash "0xEVIL") fails after exactly the
default budget of 10 truncations; the truncation count is certified through
`C5_retry_exhaustion` with the two reachable states as the invariant. -/
theorem C5_retry_exhaustion_witness :
    m5.update_chain source_unstable_tip = UpdateResult.resolutionFailure m_unstable ∧
    m5.update_chain_truncation_count source_unstable_tip = m5.max_cycle_tries ∧
    m5.max_cycle_tries = 10 := by
  have h := C5_retry_exhaustion source_unstable_tip m5
    (fun s => s = m5 ∨ s = m_unstable) (Or.inl rfl) ?step
  · exact ⟨rfl, h.2, rfl⟩
  case step =>
    intro attempt m' hP
    rcases hP with h' | h' <;> subst h'
    · exact ⟨m5, 5, "0x5", "0xEVIL", rfl, rfl, Or.inr rfl⟩
    · exact ⟨m_unstable, 5, "0x5", "0xEVIL", rfl, rfl, Or.inr rfl⟩

end Reorgmon
